import Mathlib

/-!
Shallow embedding of `toyparsing.py`, a small monadic parser-combinator
library over an in-memory string, together with proofs about its
combinators.

Modelling conventions:
* the Python cursor (a string) is a `List Char`;
* Python's dynamically typed parser values live in the inductive `Value`,
  which includes a `Value.none` constructor for Python's `None`;
* a Python parser is a function from a cursor to `PResult`: success with a
  value and a new cursor, the internal no-result indicator (the caught
  `Nothing` exception), or a propagating fatal error (the uncaught
  `ParserFailure` exception) carrying its message;
* a parser body (the `do_f` argument of the `Parser` class) is a state
  computation `BodyM` over the private cursor holder, whose outcomes
  `BodyOut` are: normal completion, the raised internal signal `Nothing`,
  or the raised fatal signal; `mkParser` is `Parser.__call__`, which runs
  the body on the initial cursor, catches the internal signal and turns it
  into the no-result indicator, and lets the fatal signal pass;
* `run` is the capability handed to bodies: it executes a sub-parser on the
  holder, updates the holder on success, and on failure applies the policy
  selected by the `nullable` / `throwable` flags exactly as in the source.
-/

namespace Toyparsing

/-- Cursor: the remaining unconsumed input, as a list of characters. -/
abbrev Cursor := List Char

/-- Dynamically typed values a parser may yield (the Python values used by
the library: `None`, strings, booleans and lists). -/
inductive Value where
  | none : Value
  | str (s : Cursor) : Value
  | bool (b : Bool) : Value
  | list (l : List Value) : Value

/-- Test for the Python value `None` (the absent marker). -/
def Value.isNone : Value → Bool
  | .none => true
  | _ => false

/-- Extract a string value (parsers such as `get` always yield one). -/
def Value.getStr : Value → Cursor
  | .str s => s
  | _ => []

/-- Extract a list value (parsers such as `moreThan0` always yield one). -/
def Value.getList : Value → List Value
  | .list l => l
  | _ => []

/-- Outcome of invoking a parser on a cursor: success with a value and the
new cursor, the no-result indicator (`None` in the source, cursor of the
caller untouched), or the propagating fatal failure with its message. -/
inductive PResult where
  | ok (a : Value) (s : Cursor) : PResult
  | noResult : PResult
  | fatal (msg : String) : PResult

/-- A parser, as the function `Parser.__call__`: cursor in, `PResult` out. -/
abbrev Parser := Cursor → PResult

/-- Outcome of a parser body running on the private cursor holder: normal
completion with a value and the final holder, the raised internal signal
(`raise Nothing`), or the raised fatal signal (`raise ParserFailure`). -/
inductive BodyOut where
  | done (a : Value) (s : Cursor) : BodyOut
  | nothing : BodyOut
  | fatal (msg : String) : BodyOut

/-- A parser body as a state computation over the cursor holder. -/
abbrev BodyM := Cursor → BodyOut

/-- Sequencing of body computations: the Python body runs statement by
statement on the mutable holder; a raised signal aborts the rest. -/
def BodyM.bind (x : BodyM) (f : Value → BodyM) : BodyM := fun s =>
  match x s with
  | .done a s' => f a s'
  | .nothing => .nothing
  | .fatal m => .fatal m

/-- Completing a body normally with value `a` (Python `return a`). -/
def BodyM.ret (a : Value) : BodyM := fun s => .done a s

/-- The `run` capability of `Parser.__call__`: execute sub-parser `m` on the
holder; on success update the holder and hand the value to the body; on
no-result leave the holder unchanged and apply the selected failure policy
(`nullable`: hand back `None`; `throwable`: raise the fatal signal with an
empty message; default: raise the internal signal). A fatal outcome of `m`
always propagates. -/
def run (m : Parser) (nullable throwable : Bool) : BodyM := fun s =>
  match m s with
  | .ok a s' => .done a s'
  | .noResult =>
      if nullable then .done .none s
      else if throwable then .fatal "" else .nothing
  | .fatal msg => .fatal msg

/-- `Parser.__call__` for a parser built from a body (`parser_do`): run the
body on the initial cursor; catch the internal signal and return the
no-result indicator; let the fatal signal propagate. -/
def mkParser (body : BodyM) : Parser := fun s =>
  match body s with
  | .done a s' => .ok a s'
  | .nothing => .noResult
  | .fatal m => .fatal m

/-- The `get` parser: always succeeds with the current cursor as its value,
cursor unchanged (class `Get`, which overrides `__call__` directly). -/
def get : Parser := fun s => .ok (.str s) s

/-- The `put` parser: always succeeds, replaces the cursor with `ns` and
returns `ns` as its value (class `put`). -/
def put (ns : Cursor) : Parser := fun _ => .ok (.str ns) ns

/-- The `fail` parser: always yields the no-result indicator (class `Fail`,
whose `__call__` returns `None`). -/
def fail : Parser := fun _ => .noResult

/-- Monadic unit: always succeed with the fixed value `a`. -/
def unit (a : Value) : Parser := mkParser (BodyM.ret a)

/-- Sequencing `self & p` (`Parser.__and__`): run `self`, then `p`, yield
the two values as a 2-element list. -/
def Parser.and (self p : Parser) : Parser :=
  mkParser (BodyM.bind (run self false false) fun a =>
    BodyM.bind (run p false false) fun b =>
      BodyM.ret (.list [a, b]))

/-- Alternation `self | p` (`Parser.__or__`): run `self` with
`nullable=True`; if it handed back a value that is not `None`, yield it;
otherwise run `p` with the default policy. -/
def Parser.or (self p : Parser) : Parser :=
  mkParser (BodyM.bind (run self true false) fun a =>
    if a.isNone then run p false false else BodyM.ret a)

/-- Mapping `self > f` (`Parser.__gt__`): run `self`, yield `f` applied to
its value. -/
def Parser.fmap (self : Parser) (f : Value → Value) : Parser :=
  mkParser (BodyM.bind (run self false false) fun a => BodyM.ret (f a))

/-- Python's `str.strip()` whitespace set (ASCII part). -/
def pyIsSpace (c : Char) : Bool :=
  c = ' ' || c = '\t' || c = '\n' || c = '\r' || c = '\x0b' || c = '\x0c'

/-- Python's `str.strip()`: drop leading and trailing whitespace. -/
def pyStrip (s : Cursor) : Cursor :=
  ((s.dropWhile pyIsSpace).reverse.dropWhile pyIsSpace).reverse

/-- The `word(pstr)` primitive: strip the cursor; if its first
`len(pstr)` characters equal `pstr`, replace the cursor with the rest and
yield `pstr`; otherwise run `fail`. -/
def word (pstr : Cursor) : Parser :=
  mkParser (BodyM.bind (run get false false) fun v =>
    let s := pyStrip v.getStr
    if s.take pstr.length = pstr then
      BodyM.bind (run (put (s.drop pstr.length)) false false) fun _ =>
        BodyM.ret (.str pstr)
    else run fail false false)

/-- The `pattern(pstr)` primitive. The compiled regular expression is
delegated to a host matcher, modelled as `matchEnd`: given the stripped
cursor it returns `m.end()` of a match anchored at position 0, or `none`
when there is no match. The body strips the cursor, tries the matcher,
and on a match of length `e` replaces the cursor with the rest and yields
the matched prefix; otherwise it runs `fail`. -/
def pattern (matchEnd : Cursor → Option Nat) : Parser :=
  mkParser (BodyM.bind (run get false false) fun v =>
    let s := pyStrip v.getStr
    match matchEnd s with
    | Option.none => run fail false false
    | Option.some e =>
        BodyM.bind (run (put (s.drop e)) false false) fun _ =>
          BodyM.ret (.str (s.take e)))

/-- The anchored matcher of the regular expression `[0-9]+`: the longest
(greedy) prefix of decimal digits, failing when it is empty. -/
def digitsMatch (s : Cursor) : Option Nat :=
  let n := (s.takeWhile Char.isDigit).length
  if n = 0 then Option.none else Option.some n

/-- The `optional(p)` combinator: run `p` with `nullable=True`; yield the
empty list when it handed back `None`, the singleton of its value
otherwise. -/
def optional (p : Parser) : Parser :=
  mkParser (BodyM.bind (run p true false) fun a =>
    BodyM.ret (if a.isNone then .list [] else .list [a]))

/-- The guarded parser `q` inside `moreThan0(p)`: read the cursor, run `p`
with the default policy, read the cursor again; if `p` consumed at least
one character yield its value, otherwise run `fail`. -/
def guardQ (p : Parser) : Parser :=
  mkParser (BodyM.bind (run get false false) fun v0 =>
    BodyM.bind (run p false false) fun a =>
      BodyM.bind (run get false false) fun v1 =>
        if v1.getStr.length < v0.getStr.length then BodyM.ret a
        else run fail false false)

/-- Direct characterization of `guardQ`. -/
theorem guardQ_eq (p : Parser) (s : Cursor) :
    guardQ p s =
      match p s with
      | .noResult => .noResult
      | .fatal m => .fatal m
      | .ok a s' =>
          if s'.length < s.length then .ok a s' else .noResult := by
  cases hp : p s with
  | ok a s' =>
      by_cases hlt : s'.length < s.length <;>
        simp [guardQ, mkParser, BodyM.bind, BodyM.ret, run, get, fail, hp,
          Value.getStr, hlt]
  | noResult =>
      simp [guardQ, mkParser, BodyM.bind, BodyM.ret, run, get, fail, hp]
  | fatal m =>
      simp [guardQ, mkParser, BodyM.bind, BodyM.ret, run, get, fail, hp]

/-- A successful `guardQ` consumed at least one character. -/
theorem guardQ_lt {p : Parser} {s s' : Cursor} {a : Value}
    (h : guardQ p s = .ok a s') : s'.length < s.length := by
  rw [guardQ_eq] at h
  cases hp : p s with
  | ok b t =>
      rw [hp] at h
      by_cases hlt : t.length < s.length
      · simp [hlt] at h
        obtain ⟨_, h2⟩ := h
        subst h2
        exact hlt
      · simp [hlt] at h
  | noResult => rw [hp] at h; simp at h
  | fatal m => rw [hp] at h; simp at h

/-- A non-`None` value handed back by `run (guardQ p)` under the nullable
policy comes from a successful consuming step. -/
theorem run_guardQ_lt {p : Parser} {s s' : Cursor} {b : Value}
    (h : run (guardQ p) true false s = .done b s') (hb : ¬ b.isNone = true) :
    s'.length < s.length := by
  unfold run at h
  cases hq : guardQ p s with
  | ok a t =>
      rw [hq] at h
      simp at h
      obtain ⟨h1, h2⟩ := h
      subst h1; subst h2
      exact guardQ_lt hq
  | noResult =>
      rw [hq] at h
      simp at h
      obtain ⟨h1, _⟩ := h
      subst h1
      simp [Value.isNone] at hb
  | fatal m => rw [hq] at h; simp at h

/-- The accumulation loop of `p_star` inside `moreThan0(p)`: repeatedly run
the guarded parser with `nullable=True` on the holder; on a `None` answer
break and complete with the accumulated list, otherwise append the value
and continue. Terminates because every non-`None` answer consumed input
(`run_guardQ_lt`). -/
def pStarLoop (p : Parser) (acc : List Value) (s : Cursor) : BodyOut :=
  match h : run (guardQ p) true false s with
  | .nothing => .nothing
  | .fatal m => .fatal m
  | .done b s' =>
      if hb : b.isNone then .done (.list acc) s'
      else pStarLoop p (acc ++ [b]) s'
termination_by s.length
decreasing_by exact run_guardQ_lt h hb

/-- The `moreThan0(p)` combinator (`p_star`): the loop started with an
empty accumulator, wrapped as a parser. -/
def moreThan0 (p : Parser) : Parser :=
  mkParser (fun s => pStarLoop p [] s)

/-- The `moreThan1(p)` combinator (`p_plus`): run `p`, then `moreThan0 p`,
yield the first value consed onto the collected list. -/
def moreThan1 (p : Parser) : Parser :=
  mkParser (BodyM.bind (run p false false) fun a =>
    BodyM.bind (run (moreThan0 p) false false) fun b =>
      BodyM.ret (.list (a :: b.getList)))

/-- The `sepBy(p, sep)` combinator: run `p`, then `moreThan0 (sep & p)`,
and flatten (`reduce(add, ..., [])` concatenates the 2-element lists of
the collected pairs) behind the first value. -/
def sepBy (p sep : Parser) : Parser :=
  mkParser (BodyM.bind (run p false false) fun a =>
    BodyM.bind (run (moreThan0 (Parser.and sep p)) false false) fun b =>
      BodyM.ret (.list (a :: (b.getList.map Value.getList).flatten)))

/-- The `peek(p)` combinator: read the cursor, run `p` with
`nullable=True`; on a non-`None` answer restore the saved cursor and yield
`True`, otherwise yield `False`. -/
def peek (p : Parser) : Parser :=
  mkParser (BodyM.bind (run get false false) fun v =>
    BodyM.bind (run p true false) fun r =>
      if r.isNone then BodyM.ret (.bool false)
      else
        BodyM.bind (run (put v.getStr) false false) fun _ =>
          BodyM.ret (.bool true))

/-- The `fatal(msg)` combinator: read the cursor and raise the fatal signal
with message `msg ++ ":" ++` the first 16 characters of the cursor. -/
def fatal (msg : String) : Parser :=
  mkParser (BodyM.bind (run get false false) fun v =>
    fun _ => .fatal (msg ++ ":" ++ (v.getStr.take 16).asString))

/-! ### Characterization lemmas -/

/-- Unfolding of the `p_star` loop into a plain (non-dependent) match. -/
theorem pStarLoop_eq (p : Parser) (acc : List Value) (s : Cursor) :
    pStarLoop p acc s =
      match run (guardQ p) true false s with
      | .nothing => .nothing
      | .fatal m => .fatal m
      | .done b s' =>
          if b.isNone then .done (.list acc) s'
          else pStarLoop p (acc ++ [b]) s' := by
  rw [pStarLoop]
  split <;> rename_i heq <;> simp [heq]

/-- The loop stops, completing with the accumulator, when the guarded
parser hands back `None`. -/
theorem pStarLoop_stop {p : Parser} (acc : List Value) {s s' : Cursor} {b : Value}
    (h : run (guardQ p) true false s = .done b s') (hb : b.isNone = true) :
    pStarLoop p acc s = .done (.list acc) s' := by
  rw [pStarLoop_eq, h]
  simp [hb]

/-- The loop appends a non-`None` value and continues. -/
theorem pStarLoop_step {p : Parser} (acc : List Value) {s s' : Cursor} {b : Value}
    (h : run (guardQ p) true false s = .done b s') (hb : b.isNone = false) :
    pStarLoop p acc s = pStarLoop p (acc ++ [b]) s' := by
  rw [pStarLoop_eq, h]
  simp [hb]

/-- The loop propagates a fatal signal raised by the guarded parser. -/
theorem pStarLoop_fatalStep {p : Parser} (acc : List Value) {s : Cursor} {m : String}
    (h : run (guardQ p) true false s = .fatal m) :
    pStarLoop p acc s = .fatal m := by
  rw [pStarLoop_eq, h]

/-- Under the nullable policy, `run` never raises the internal signal. -/
theorem run_nullable_ne_nothing (m : Parser) (tb : Bool) (s : Cursor) :
    run m true tb s ≠ .nothing := by
  unfold run
  cases m s <;> simp

/-- The `p_star` loop always completes with a list value or propagates a
fatal signal (never the internal signal): the source's termination and
totality argument for `moreThan0`. -/
theorem pStarLoop_shape (p : Parser) :
    ∀ (n : Nat) (s : Cursor), s.length ≤ n → ∀ acc : List Value,
      (∃ l s', pStarLoop p acc s = .done (.list l) s') ∨
      (∃ m, pStarLoop p acc s = .fatal m) := by
  intro n
  induction n with
  | zero =>
      intro s hs acc
      cases hr : run (guardQ p) true false s with
      | nothing => exact absurd hr (run_nullable_ne_nothing (guardQ p) false s)
      | fatal m => exact Or.inr ⟨m, pStarLoop_fatalStep acc hr⟩
      | done b s' =>
          cases hb : b.isNone with
          | true => exact Or.inl ⟨acc, s', pStarLoop_stop acc hr hb⟩
          | false =>
              exact absurd (run_guardQ_lt hr (by simp [hb]))
                (by omega)
  | succ k ih =>
      intro s hs acc
      cases hr : run (guardQ p) true false s with
      | nothing => exact absurd hr (run_nullable_ne_nothing (guardQ p) false s)
      | fatal m => exact Or.inr ⟨m, pStarLoop_fatalStep acc hr⟩
      | done b s' =>
          cases hb : b.isNone with
          | true => exact Or.inl ⟨acc, s', pStarLoop_stop acc hr hb⟩
          | false =>
              rw [pStarLoop_step acc hr hb]
              have hlt := run_guardQ_lt hr (by simp [hb])
              exact ih s' (by omega) (acc ++ [b])

/-- `moreThan0` unfolds to the loop through the `Parser.__call__`
boundary. -/
theorem moreThan0_eq (p : Parser) (s : Cursor) :
    moreThan0 p s =
      match pStarLoop p [] s with
      | .done a s' => .ok a s'
      | .nothing => .noResult
      | .fatal m => .fatal m := rfl

/-- `moreThan0` always yields a list value or propagates a fatal signal. -/
theorem moreThan0_shape (p : Parser) (s : Cursor) :
    (∃ l s', moreThan0 p s = .ok (.list l) s') ∨
    (∃ m, moreThan0 p s = .fatal m) := by
  rcases pStarLoop_shape p s.length s (Nat.le_refl _) [] with ⟨l, s', h⟩ | ⟨m, h⟩
  · exact Or.inl ⟨l, s', by rw [moreThan0_eq, h]⟩
  · exact Or.inr ⟨m, by rw [moreThan0_eq, h]⟩

/-- `moreThan0` never yields the no-result indicator. -/
theorem moreThan0_ne_noResult (p : Parser) (s : Cursor) :
    moreThan0 p s ≠ .noResult := by
  rcases moreThan0_shape p s with ⟨l, s', h⟩ | ⟨m, h⟩ <;> simp [h]

/-- Direct characterization of alternation `self | p`. -/
theorem or_eq (self p : Parser) (s : Cursor) :
    Parser.or self p s =
      match self s with
      | .ok a s' => if a.isNone then p s' else .ok a s'
      | .noResult => p s
      | .fatal m => .fatal m := by
  cases hp : self s with
  | ok a s' =>
      cases hn : a.isNone with
      | true =>
          cases hq : p s' <;>
            simp [Parser.or, mkParser, BodyM.bind, BodyM.ret, run, hp, hn, hq]
      | false =>
          simp [Parser.or, mkParser, BodyM.bind, BodyM.ret, run, hp, hn]
  | noResult =>
      cases hq : p s <;>
        simp [Parser.or, mkParser, BodyM.bind, BodyM.ret, run, hp, Value.isNone, hq]
  | fatal m =>
      simp [Parser.or, mkParser, BodyM.bind, BodyM.ret, run, hp]

/-- Direct characterization of sequencing `self & p`. -/
theorem and_eq (self p : Parser) (s : Cursor) :
    Parser.and self p s =
      match self s with
      | .ok a s1 =>
          (match p s1 with
           | .ok b s2 => .ok (.list [a, b]) s2
           | .noResult => .noResult
           | .fatal m => .fatal m)
      | .noResult => .noResult
      | .fatal m => .fatal m := by
  cases hp : self s with
  | ok a s1 =>
      cases hq : p s1 <;>
        simp [Parser.and, mkParser, BodyM.bind, BodyM.ret, run, hp, hq]
  | noResult => simp [Parser.and, mkParser, BodyM.bind, BodyM.ret, run, hp]
  | fatal m => simp [Parser.and, mkParser, BodyM.bind, BodyM.ret, run, hp]

/-- Direct characterization of `optional p`. -/
theorem optional_eq (p : Parser) (s : Cursor) :
    optional p s =
      match p s with
      | .ok a s' =>
          if a.isNone then .ok (.list []) s' else .ok (.list [a]) s'
      | .noResult => .ok (.list []) s
      | .fatal m => .fatal m := by
  cases hp : p s with
  | ok a s' =>
      cases hn : a.isNone with
      | true => simp [optional, mkParser, BodyM.bind, BodyM.ret, run, hp, hn]
      | false => simp [optional, mkParser, BodyM.bind, BodyM.ret, run, hp, hn]
  | noResult =>
      simp [optional, mkParser, BodyM.bind, BodyM.ret, run, hp, Value.isNone]
  | fatal m => simp [optional, mkParser, BodyM.bind, BodyM.ret, run, hp]

/-- Direct characterization of `peek p`. -/
theorem peek_eq (p : Parser) (s : Cursor) :
    peek p s =
      match p s with
      | .ok a s' =>
          if a.isNone then .ok (.bool false) s' else .ok (.bool true) s
      | .noResult => .ok (.bool false) s
      | .fatal m => .fatal m := by
  cases hp : p s with
  | ok a s' =>
      cases hn : a.isNone with
      | true =>
          simp [peek, mkParser, BodyM.bind, BodyM.ret, run, get, put,
            Value.getStr, hp, hn]
      | false =>
          simp [peek, mkParser, BodyM.bind, BodyM.ret, run, get, put,
            Value.getStr, hp, hn]
  | noResult =>
      simp [peek, mkParser, BodyM.bind, BodyM.ret, run, get, put,
        Value.getStr, hp, Value.isNone]
  | fatal m =>
      simp [peek, mkParser, BodyM.bind, BodyM.ret, run, get, put, hp]

/-- Direct characterization of `word lit`. -/
theorem word_eq (lit : Cursor) (s : Cursor) :
    word lit s =
      if (pyStrip s).take lit.length = lit then
        .ok (.str lit) ((pyStrip s).drop lit.length)
      else .noResult := by
  by_cases h : (pyStrip s).take lit.length = lit <;>
    simp [word, mkParser, BodyM.bind, BodyM.ret, run, get, put, fail,
      Value.getStr, h]

/-- Direct characterization of `pattern matchEnd`. -/
theorem pattern_eq (matchEnd : Cursor → Option Nat) (s : Cursor) :
    pattern matchEnd s =
      match matchEnd (pyStrip s) with
      | Option.none => .noResult
      | Option.some e =>
          .ok (.str ((pyStrip s).take e)) ((pyStrip s).drop e) := by
  cases h : matchEnd (pyStrip s) with
  | none =>
      simp [pattern, mkParser, BodyM.bind, BodyM.ret, run, get, put, fail,
        Value.getStr, h]
  | some e =>
      simp [pattern, mkParser, BodyM.bind, BodyM.ret, run, get, put, fail,
        Value.getStr, h]

/-- Direct characterization of `fatal msg`. -/
theorem fatal_eq (msg : String) (s : Cursor) :
    fatal msg s = .fatal (msg ++ ":" ++ (s.take 16).asString) := by
  simp [fatal, mkParser, BodyM.bind, run, get, Value.getStr]

/-- Direct characterization of `moreThan1 p`. -/
theorem moreThan1_eq (p : Parser) (s : Cursor) :
    moreThan1 p s =
      match p s with
      | .ok a s1 =>
          (match moreThan0 p s1 with
           | .ok b s2 => .ok (.list (a :: b.getList)) s2
           | .noResult => .noResult
           | .fatal m => .fatal m)
      | .noResult => .noResult
      | .fatal m => .fatal m := by
  cases hp : p s with
  | ok a s1 =>
      cases hq : moreThan0 p s1 <;>
        simp [moreThan1, mkParser, BodyM.bind, BodyM.ret, run, hp, hq]
  | noResult => simp [moreThan1, mkParser, BodyM.bind, BodyM.ret, run, hp]
  | fatal m => simp [moreThan1, mkParser, BodyM.bind, BodyM.ret, run, hp]

/-- Direct characterization of `sepBy p sep`. -/
theorem sepBy_eq (p sep : Parser) (s : Cursor) :
    sepBy p sep s =
      match p s with
      | .ok a s1 =>
          (match moreThan0 (Parser.and sep p) s1 with
           | .ok b s2 =>
               .ok (.list (a :: (b.getList.map Value.getList).flatten)) s2
           | .noResult => .noResult
           | .fatal m => .fatal m)
      | .noResult => .noResult
      | .fatal m => .fatal m := by
  cases hp : p s with
  | ok a s1 =>
      cases hq : moreThan0 (Parser.and sep p) s1 <;>
        simp [sepBy, mkParser, BodyM.bind, BodyM.ret, run, hp, hq]
  | noResult => simp [sepBy, mkParser, BodyM.bind, BodyM.ret, run, hp]
  | fatal m => simp [sepBy, mkParser, BodyM.bind, BodyM.ret, run, hp]

/-! ### Claim theorems -/

/-- Claim C1, counterexample: the claim says `peek p` returns `true`
whenever `p` matched, for every parser `p` and cursor `s`. It is false:
`unit None` matches on `['a','b']`, yet `peek (unit None)` returns
`false` there, because the nullable `run` hands the body the value `None`,
indistinguishable from a non-match. -/
theorem C1_cex :
    ¬ (∀ (p : Parser) (s : Cursor),
        (∃ a s', p s = .ok a s') → peek p s = .ok (.bool true) s) := by
  intro h
  have hm : unit Value.none ['a', 'b'] = .ok Value.none ['a', 'b'] := rfl
  have ht := h (unit Value.none) ['a', 'b'] ⟨Value.none, ['a', 'b'], hm⟩
  have hf : peek (unit Value.none) ['a', 'b'] = .ok (.bool false) ['a', 'b'] := rfl
  rw [hf] at ht
  simp at ht

/-- Claim C1, amended: for every parser `p` and cursor `s`, `peek p`
succeeds without consuming input and reports whether `p` matched, provided
`p`'s invocation on `s` neither succeeds with the value `None` nor raises
the fatal signal; a success of `p` with value `None` makes `peek` report
`false` (while keeping `p`'s cursor), and a fatal signal propagates. -/
theorem C1_peek (p : Parser) (s : Cursor) :
    (∀ a s', p s = .ok a s' → a.isNone = false →
        peek p s = .ok (.bool true) s) ∧
    (p s = .noResult → peek p s = .ok (.bool false) s) ∧
    (∀ m, p s = .fatal m → peek p s = .fatal m) := by
  refine ⟨?_, ?_, ?_⟩
  · intro a s' h hn
    rw [peek_eq, h]
    simp [hn]
  · intro h
    rw [peek_eq, h]
  · intro m h
    rw [peek_eq, h]

/-- Witness for the amended C1 at `p = word "x"`, `s = "xy"`. -/
theorem C1_peek_w :
    peek (word ['x']) ['x', 'y'] = .ok (.bool true) ['x', 'y'] :=
  (C1_peek (word ['x']) ['x', 'y']).1 (.str ['x']) ['y'] rfl rfl

/-- Claim C2, counterexample: the claim says that whenever `optional p`
takes the `[]` branch the cursor is unchanged, for every `p`. It is false:
for `p = word "x" > (fun _ => None)` on `"xy"`, `optional p` returns `[]`
while the cursor has advanced to `"y"`. -/
theorem C2_cex :
    ¬ (∀ (p : Parser) (s s' : Cursor),
        optional p s = .ok (.list []) s' → s' = s) := by
  intro h
  have e : optional (Parser.fmap (word ['x']) fun _ => Value.none)
      ['x', 'y'] = .ok (.list []) ['y'] := rfl
  have := h _ ['x', 'y'] ['y'] e
  simp at this

/-- Claim C2, amended: `optional p` returns either `[]` or `[value]`; the
`[]` branch leaves the cursor unchanged when `p` did not match, but when
`p` succeeded with the value `None` the `[]` branch keeps `p`'s advanced
cursor; a fatal signal from `p` propagates (so `optional` fails only
then). -/
theorem C2_optional (p : Parser) (s : Cursor) :
    (p s = .noResult → optional p s = .ok (.list []) s) ∧
    (∀ a s', p s = .ok a s' → a.isNone = false →
        optional p s = .ok (.list [a]) s') ∧
    (∀ s', p s = .ok .none s' → optional p s = .ok (.list []) s') ∧
    (∀ m, p s = .fatal m → optional p s = .fatal m) := by
  refine ⟨?_, ?_, ?_, ?_⟩
  · intro h
    rw [optional_eq, h]
  · intro a s' h hn
    rw [optional_eq, h]
    simp [hn]
  · intro s' h
    rw [optional_eq, h]
    simp [Value.isNone]
  · intro m h
    rw [optional_eq, h]

/-- Witness for the amended C2 at `p = word "x"`, `s = "xy"`. -/
theorem C2_optional_w :
    optional (word ['x']) ['x', 'y'] = .ok (.list [.str ['x']]) ['y'] :=
  (C2_optional (word ['x']) ['x', 'y']).2.1 (.str ['x']) ['y'] rfl rfl

/-- Claim C3, counterexample: the claim says that whenever `self` produced
a value, that value is the whole result of `self | p`. It is false when
the produced value is `None`: for `self = word "x" > (fun _ => None)` and
`p = word "y"` on `"xy"`, `self` succeeds with value `None` consuming
`"x"`, yet the alternation goes on to run `p` (from the advanced cursor
`"y"`) and returns `p`'s value. -/
theorem C3_cex :
    ¬ (∀ (self p : Parser) (s : Cursor) (a : Value) (s' : Cursor),
        self s = .ok a s' → Parser.or self p s = .ok a s') := by
  intro h
  have e1 : (Parser.fmap (word ['x']) fun _ => Value.none) ['x', 'y'] =
      .ok Value.none ['y'] := rfl
  have ht := h _ (word ['y']) ['x', 'y'] Value.none ['y'] e1
  have e2 : Parser.or (Parser.fmap (word ['x']) fun _ => Value.none)
      (word ['y']) ['x', 'y'] = .ok (.str ['y']) [] := rfl
  rw [e2] at ht
  simp at ht

/-- Claim C3, amended: `self | p` returns `self`'s value when `self`
produced a value other than `None`; when `self` did not match, `p` runs
from the very cursor presented to `self` and its outcome is the whole
outcome as-is; when `self` succeeded with the value `None`, `p` runs from
`self`'s advanced cursor; a fatal signal from `self` propagates without
running `p`. -/
theorem C3_or (self p : Parser) (s : Cursor) :
    (∀ a s', self s = .ok a s' → a.isNone = false →
        Parser.or self p s = .ok a s') ∧
    (self s = .noResult → Parser.or self p s = p s) ∧
    (∀ s', self s = .ok .none s' → Parser.or self p s = p s') ∧
    (∀ m, self s = .fatal m → Parser.or self p s = .fatal m) := by
  refine ⟨?_, ?_, ?_, ?_⟩
  · intro a s' h hn
    rw [or_eq, h]
    simp [hn]
  · intro h
    rw [or_eq, h]
  · intro s' h
    rw [or_eq, h]
    simp [Value.isNone]
  · intro m h
    rw [or_eq, h]

/-- Witness for the amended C3: a failed left branch hands the untouched
cursor to the right branch. -/
theorem C3_or_w :
    Parser.or fail (word ['x']) ['x', 'y'] = word ['x'] ['x', 'y'] :=
  (C3_or fail (word ['x']) ['x', 'y']).2.1 rfl

/-- Claim C4: a sub-parser `m` that succeeds with the value `None` while
consuming input is handed back by the nullable `run` as the absent marker
`None` — exactly what a non-match produces — while the private cursor
holder is still advanced to `m`'s new cursor. Consequently every
nullable-policy combinator treats such a success like a non-match while
the consumed input stays consumed: the alternation runs its right branch
from the advanced cursor, `optional` returns `[]` with the advanced
cursor, `moreThan0` stops with the advanced cursor, and `peek` reports
`false` with the advanced cursor. -/
theorem C4_nullableNone (p : Parser) (s s' : Cursor)
    (h : p s = .ok .none s') (hlen : s'.length < s.length) :
    run p true false s = .done .none s' ∧
    (∀ q, Parser.or p q s = q s') ∧
    optional p s = .ok (.list []) s' ∧
    moreThan0 p s = .ok (.list []) s' ∧
    peek p s = .ok (.bool false) s' := by
  refine ⟨?_, ?_, ?_, ?_, ?_⟩
  · simp [run, h]
  · intro q
    rw [or_eq, h]
    simp [Value.isNone]
  · rw [optional_eq, h]
    simp [Value.isNone]
  · have hg : guardQ p s = .ok .none s' := by
      rw [guardQ_eq, h]
      simp [hlen]
    have hr : run (guardQ p) true false s = .done .none s' := by
      simp [run, hg]
    rw [moreThan0_eq, pStarLoop_stop [] hr rfl]
  · rw [peek_eq, h]
    simp [Value.isNone]

/-- Witness for C4 at `p = word "x" > (fun _ => None)` on `"xy"`: the
alternation's right branch `word "y"` is run from the consumed cursor
`"y"` and matches. -/
theorem C4_nullableNone_w :
    Parser.or (Parser.fmap (word ['x']) fun _ => Value.none)
      (word ['y']) ['x', 'y'] = word ['y'] ['y'] :=
  ((C4_nullableNone (Parser.fmap (word ['x']) fun _ => Value.none)
    ['x', 'y'] ['y'] rfl (by decide)).2.1) (word ['y'])

/-- Claim C5: `sepBy p sep` runs `p` once, then `moreThan0 (sep & p)`, and
returns the flattened interleaved sequence that includes the separator
values; it yields the no-result indicator exactly when the first `p` does;
and on `"1,2,3"` with `p = pattern "[0-9]+"`, `sep = word ","` it returns
exactly `["1", ",", "2", ",", "3"]` with an empty leftover cursor. -/
theorem C5_sepBy :
    (∀ (p sep : Parser) (s : Cursor),
      (p s = .noResult → sepBy p sep s = .noResult) ∧
      (sepBy p sep s = .noResult → p s = .noResult) ∧
      (∀ a s1 b s2, p s = .ok a s1 →
        moreThan0 (Parser.and sep p) s1 = .ok b s2 →
        sepBy p sep s =
          .ok (.list (a :: (b.getList.map Value.getList).flatten)) s2)) ∧
    sepBy (pattern digitsMatch) (word [',']) ("1,2,3".toList) =
      .ok (.list [.str ['1'], .str [','], .str ['2'], .str [','],
        .str ['3']]) [] := by
  constructor
  · intro p sep s
    refine ⟨?_, ?_, ?_⟩
    · intro h
      rw [sepBy_eq, h]
    · intro h
      cases hp : p s with
      | ok a s1 =>
          rw [sepBy_eq, hp] at h
          rcases moreThan0_shape (Parser.and sep p) s1 with ⟨l, s2, hm⟩ | ⟨m, hm⟩ <;>
            simp [hm] at h
      | noResult => rfl
      | fatal m =>
          rw [sepBy_eq, hp] at h
          simp at h
    · intro a s1 b s2 h1 h2
      rw [sepBy_eq, h1]
      simp [h2]
  · have h1 : run (guardQ (Parser.and (word [',']) (pattern digitsMatch)))
        true false [',', '2', ',', '3'] =
        .done (.list [.str [','], .str ['2']]) [',', '3'] := rfl
    have h2 : run (guardQ (Parser.and (word [',']) (pattern digitsMatch)))
        true false [',', '3'] =
        .done (.list [.str [','], .str ['3']]) [] := rfl
    have h3 : run (guardQ (Parser.and (word [',']) (pattern digitsMatch)))
        true false [] = .done Value.none [] := rfl
    have m0 : moreThan0 (Parser.and (word [',']) (pattern digitsMatch))
        [',', '2', ',', '3'] =
        .ok (.list [.list [.str [','], .str ['2']],
          .list [.str [','], .str ['3']]]) [] := by
      rw [moreThan0_eq, pStarLoop_step [] h1 rfl, pStarLoop_step _ h2 rfl,
        pStarLoop_stop _ h3 rfl]
      rfl
    have h0 : pattern digitsMatch ("1,2,3".toList) =
        .ok (.str ['1']) (",2,3".toList) := rfl
    rw [sepBy_eq, h0]
    simp [m0, Value.getList]

/-- Witness for C5: `sepBy` yields the no-result indicator when the first
`p` does. -/
theorem C5_sepBy_w : sepBy fail (word [',']) ['1'] = .noResult :=
  (C5_sepBy.1 fail (word [',']) ['1']).1 rfl

/-- Claim C6: whenever an invocation yields the no-result indicator the
caller's cursor is unchanged: the no-result indicator carries no cursor,
`run` leaves the holder untouched on it (returning the absent marker
under the nullable policy with the holder equal to the cursor it was
given), the `Parser.__call__` boundary converts a raised internal signal
into the no-result indicator, `fail` yields it on any cursor, and after a
failed left branch the alternation presents the right branch with the very
cursor the left branch started from. -/
theorem C6_noConsume (m : Parser) (s : Cursor) :
    fail s = .noResult ∧
    (m s = .noResult →
      run m false false s = .nothing ∧ run m true false s = .done .none s) ∧
    (∀ body : BodyM, body s = .nothing → mkParser body s = .noResult) ∧
    (∀ p, m s = .noResult → Parser.or m p s = p s) := by
  refine ⟨rfl, ?_, ?_, ?_⟩
  · intro h
    constructor <;> simp [run, h]
  · intro body h
    simp [mkParser, h]
  · intro p h
    rw [or_eq, h]

/-- Witness for C6 at `m = fail`. -/
theorem C6_noConsume_w : run fail false false ['a'] = .nothing :=
  ((C6_noConsume fail ['a']).2.1 rfl).1

/-- Claim C7: `fatal msg` reads the cursor and raises the fatal signal
whose message is exactly `msg ++ ":" ++` the first 16 characters of the
cursor (all of them when fewer remain); no `run` policy and no combinator
catches a fatal outcome; in particular `fatal "expected value"` on
`"1234567890123456789"` propagates the message
`"expected value:1234567890123456"` through an enclosing alternation. -/
theorem C7_fatal :
    (∀ (msg : String) (s : Cursor),
        fatal msg s = .fatal (msg ++ ":" ++ (s.take 16).asString)) ∧
    (∀ (m : Parser) (nb tb : Bool) (s : Cursor) (e : String),
        m s = .fatal e → run m nb tb s = .fatal e) ∧
    (∀ (msg : String) (p : Parser) (s : Cursor),
        Parser.or (fatal msg) p s =
          .fatal (msg ++ ":" ++ (s.take 16).asString)) ∧
    fatal "expected value" ("1234567890123456789".toList) =
      .fatal "expected value:1234567890123456" ∧
    Parser.or (fatal "expected value") (word ['x'])
        ("1234567890123456789".toList) =
      .fatal "expected value:1234567890123456" := by
  refine ⟨fatal_eq, ?_, ?_, rfl, rfl⟩
  · intro m nb tb s e h
    simp [run, h]
  · intro msg p s
    rw [or_eq, fatal_eq]

/-- Witness for C7: the default `run` policy propagates a fatal outcome. -/
theorem C7_fatal_w : run (fatal "e") false false ['a', 'b'] = .fatal "e:ab" :=
  C7_fatal.2.1 (fatal "e") false false ['a', 'b'] "e:ab" rfl

/-- Claim C8, counterexample: the claim says `moreThan0 p` always succeeds
with a sequence, for every parser `p`. It is false for `p = fatal "e"`,
whose fatal signal propagates out of the loop. -/
theorem C8_cex :
    ¬ (∀ (p : Parser) (s : Cursor),
        ∃ l s', moreThan0 p s = .ok (.list l) s') := by
  intro h
  obtain ⟨l, s', e⟩ := h (fatal "e") ['a', 'b']
  have hf : run (guardQ (fatal "e")) true false ['a', 'b'] =
      .fatal "e:ab" := rfl
  rw [moreThan0_eq, pStarLoop_fatalStep [] hf] at e
  simp at e

/-- Claim C8, amended: `moreThan0 p` terminates on every finite input and
either succeeds with a finite (possibly empty) sequence or propagates a
fatal signal raised inside `p` — it never yields the no-result indicator —
because the guard around `p` turns a zero-consumption success into a
failure that stops the loop; in particular
`moreThan0 (optional (word "x"))` on `"xxy"` returns a finite sequence
even though `optional (word "x")` matches the empty string. -/
theorem C8_moreThan0 :
    (∀ (p : Parser) (s : Cursor),
        (∃ l s', moreThan0 p s = .ok (.list l) s') ∨
        (∃ m, moreThan0 p s = .fatal m)) ∧
    moreThan0 (optional (word ['x'])) ("xxy".toList) =
      .ok (.list [.list [.str ['x']], .list [.str ['x']]]) ("y".toList) := by
  constructor
  · exact moreThan0_shape
  · have h1 : run (guardQ (optional (word ['x']))) true false ("xxy".toList)
        = .done (.list [.str ['x']]) ("xy".toList) := rfl
    have h2 : run (guardQ (optional (word ['x']))) true false ("xy".toList)
        = .done (.list [.str ['x']]) ("y".toList) := rfl
    have h3 : run (guardQ (optional (word ['x']))) true false ("y".toList)
        = .done Value.none ("y".toList) := rfl
    rw [moreThan0_eq, pStarLoop_step [] h1 rfl, pStarLoop_step _ h2 rfl,
      pStarLoop_stop _ h3 rfl]
    rfl

/-- Claim C9: `word lit` strips the cursor, compares only its first
`lit.length` characters against `lit` (no following-boundary check), and
on success drops exactly that prefix: `word "if"` succeeds on `"  if x"`
leaving `" x"`, succeeds on `"iffy"` leaving `"fy"`, and fails when the
prefix differs. -/
theorem C9_word :
    (∀ (lit s : Cursor),
        word lit s =
          if (pyStrip s).take lit.length = lit then
            .ok (.str lit) ((pyStrip s).drop lit.length)
          else .noResult) ∧
    word ("if".toList) ("  if x".toList) =
      .ok (.str ("if".toList)) (" x".toList) ∧
    word ("if".toList) ("iffy".toList) =
      .ok (.str ("if".toList)) ("fy".toList) ∧
    word ("if".toList) ("abif".toList) = .noResult :=
  ⟨word_eq, rfl, rfl, rfl⟩

/-- Claim C10: `moreThan1 p` runs `p` once without catching its failure —
when `p` does not match, `moreThan1 p` yields the no-result indicator
(cursor untouched, since the indicator carries none) — and when `p`
matches it conses `p`'s first value onto the `moreThan0 p` collection, a
non-empty sequence. -/
theorem C10_moreThan1 (p : Parser) (s : Cursor) :
    (p s = .noResult → moreThan1 p s = .noResult) ∧
    (∀ a s1 b s2, p s = .ok a s1 → moreThan0 p s1 = .ok b s2 →
        moreThan1 p s = .ok (.list (a :: b.getList)) s2) := by
  constructor
  · intro h
    rw [moreThan1_eq, h]
  · intro a s1 b s2 h1 h2
    rw [moreThan1_eq, h1]
    simp [h2]

/-- Witness for C10 at `p = word "x"` on `"y"`, where `p` never matches. -/
theorem C10_moreThan1_w : moreThan1 (word ['x']) ['y'] = .noResult :=
  (C10_moreThan1 (word ['x']) ['y']).1 rfl

end Toyparsing
